import Mathlib

/-
Verification of the Tab Saver tab-organization engine.

The definitions below are a shallow embedding of the JavaScript source
(sidepanel.js / background.js / js/storage.js and the companion module
files).  Global mutable arrays (savedTabs, groups, dailyTabs, pinnedTabs,
timedTabs, timerIntervals) become an explicit AppState record; each engine
operation becomes a pure function from state to state, returning in
addition any externally visible effect (cleared alarms, created alarms,
notification-intent counts).  JavaScript Array.prototype methods map to
List functions: filter to List.filter, some to List.any, find to
List.find?, unshift to cons, push to append, sort to insertion sort.
The browser URL parser (an external collaborator consumed via new URL) is
modelled by parseURL below; Date values become Int millisecond
timestamps.  Recursions of the source that walk the group parent graph
(which can diverge in JS if the graph is cyclic) take an explicit fuel
argument.
-/

namespace TabSaver

/-- A saved-tab record, as built by addTab / saveTabFromCurrent in
sidepanel.js: id, title, url, favicon, savedAt, groupId, plus the optional
reminder timestamp and hasTime flag set by handleSaveReminder. -/
structure Tab where
  id : Nat
  title : String
  url : String
  favicon : String
  savedAt : String
  groupId : Option String
  reminder : Option Int
  hasTime : Bool
deriving DecidableEq

/-- A group record as created by handleSaveGroup: id, name, expanded UI
flag, and nullable parentId making groups a forest (by intent). -/
structure Group where
  id : String
  name : String
  expanded : Bool
  parentId : Option String
deriving DecidableEq

/-- A timed-tab record: a copy of the underlying Tab plus timerEnd,
timerDuration and the notified flag (absent in JS until first
notification, modelled as a Bool that starts false). -/
structure TimedTab where
  tab : Tab
  timerEnd : Int
  timerDuration : Int
  notified : Bool
deriving DecidableEq

/-- The side panel process state: the five persisted collections plus the
timerIntervals map (modelled as the list of tab ids that currently have a
live countdown interval). -/
structure AppState where
  savedTabs : List Tab
  groups : List Group
  dailyTabs : List Tab
  pinnedTabs : List Tab
  timedTabs : List TimedTab
  timerIntervals : List Nat
deriving DecidableEq

/-- Updates the first element of a list satisfying p by f, leaving the
rest unchanged.  This is the effect of the JS idiom
const x = arr.find(p); if (x) mutate(x). -/
def updateFirst (p : α → Bool) (f : α → α) : List α → List α
  | [] => []
  | x :: xs => if p x then f x :: xs else x :: updateFirst p f xs

/-- The components new URL(url) exposes to normalizeUrl: origin, pathname,
search and hash. -/
structure ParsedURL where
  origin : String
  pathname : String
  search : String
  hash : String
deriving DecidableEq

/-- Splits a character list at the first occurrence of c: the first
component is everything before c, the second everything from c on
(including c itself); if c does not occur the second component is empty. -/
def breakAtChar (c : Char) : List Char → List Char × List Char
  | [] => ([], [])
  | x :: xs =>
    if x = c then ([], x :: xs)
    else
      let r := breakAtChar c xs
      (x :: r.1, r.2)

/-- Model of the external WHATWG URL parser consumed by normalizeUrl via
new URL(url), restricted to scheme://host[/path][?query][#fragment]
inputs: origin is scheme://host, pathname is the path (defaulting to "/"),
search runs from the first "?" up to the fragment, hash from the first
"#".  Inputs without "://", with an empty scheme or with an empty host
fail to parse (the JS constructor throws there). -/
def parseURL (url : String) : Option ParsedURL :=
  let cs := url.toList
  let sch := breakAtChar ':' cs
  match sch.2 with
  | ':' :: '/' :: '/' :: rest =>
    if sch.1 = [] then none
    else
      let hashSplit := breakAtChar '#' rest
      let querySplit := breakAtChar '?' hashSplit.1
      let hostSplit := breakAtChar '/' querySplit.1
      if hostSplit.1 = [] then none
      else
        some { origin := String.mk (sch.1 ++ [':', '/', '/'] ++ hostSplit.1),
               pathname := if hostSplit.2 = [] then "/" else String.mk hostSplit.2,
               search := String.mk querySplit.2,
               hash := String.mk hashSplit.2 }
  | _ => none

/-- The effect of pathname.replace(new RegExp(slash-at-end), empty):
removes one trailing slash character if present. -/
def dropTrailingSlashList : List Char → List Char
  | [] => []
  | [c] => if c = '/' then [] else [c]
  | c :: c2 :: rest => c :: dropTrailingSlashList (c2 :: rest)

/-- List-level form of dropping one trailing slash from a string. -/
def dropTrailingSlash (s : String) : String :=
  String.mk (dropTrailingSlashList s.toList)

/-- normalizeUrl from sidepanel.js / background.js: on parse success
returns origin + pathname with the trailing slash stripped + search
(dropping the fragment); on parse failure returns the input unchanged. -/
def normalizeUrl (url : String) : String :=
  match parseURL url with
  | some parsed => parsed.origin ++ dropTrailingSlash parsed.pathname ++ parsed.search
  | none => url

/-- addTab / saveTabFromCurrent from sidepanel.js (tabs module): if some
saved tab has exactly the same url string, return unchanged; otherwise
unshift a fresh record (id and savedAt are produced by the environment
and passed in here). -/
def addTab (s : AppState) (newId : Nat) (nowIso : String)
    (title url favicon : String) : AppState :=
  if s.savedTabs.any (fun t => decide (t.url = url)) then s
  else
    { s with savedTabs :=
        { id := newId, title := title, url := url, favicon := favicon,
          savedAt := nowIso, groupId := none, reminder := none,
          hasTime := false } :: s.savedTabs }

/-- Result of deleteTab: the new state plus the names of the chrome
alarms that were cleared. -/
structure DeleteTabResult where
  state : AppState
  clearedAlarms : List String
deriving DecidableEq

/-- deleteTab from sidepanel.js: filters the id out of savedTabs and
dailyTabs; if a timed tab with the id exists it is filtered out of
timedTabs, the alarm timer-id is cleared and the countdown interval for
the id is cleared.  pinnedTabs and groups are not touched. -/
def deleteTab (s : AppState) (tabId : Nat) : DeleteTabResult :=
  let saved := s.savedTabs.filter (fun t => !decide (t.id = tabId))
  let daily := s.dailyTabs.filter (fun t => !decide (t.id = tabId))
  if s.timedTabs.any (fun t => decide (t.tab.id = tabId)) then
    { state :=
        { s with
          savedTabs := saved,
          dailyTabs := daily,
          timedTabs := s.timedTabs.filter (fun t => !decide (t.tab.id = tabId)),
          timerIntervals := s.timerIntervals.filter (fun i => !decide (i = tabId)) },
      clearedAlarms := ["timer-" ++ toString tabId] }
  else
    { state := { s with savedTabs := saved, dailyTabs := daily },
      clearedAlarms := [] }

/-- addToDailyTabs from sidepanel.js: look the id up in savedTabs; if
absent do nothing; if a daily snapshot with the id already exists do
nothing; otherwise push a copy of the saved tab. -/
def addToDailyTabs (s : AppState) (tabId : Nat) : AppState :=
  match s.savedTabs.find? (fun t => decide (t.id = tabId)) with
  | none => s
  | some tab =>
    if s.dailyTabs.any (fun t => decide (t.id = tabId)) then s
    else { s with dailyTabs := s.dailyTabs ++ [tab] }

/-- addToPinnedTabs from sidepanel.js: same shape as addToDailyTabs with
the pinned collection as target. -/
def addToPinnedTabs (s : AppState) (tabId : Nat) : AppState :=
  match s.savedTabs.find? (fun t => decide (t.id = tabId)) with
  | none => s
  | some tab =>
    if s.pinnedTabs.any (fun t => decide (t.id = tabId)) then s
    else { s with pinnedTabs := s.pinnedTabs ++ [tab] }

/-- moveGroupToParent from sidepanel.js: find the group and set its
parentId to the new parent (no cycle check of any kind). -/
def moveGroupToParent (groups : List Group) (groupId : String)
    (newParentId : Option String) : List Group :=
  updateFirst (fun g => decide (g.id = groupId))
    (fun g => { g with parentId := newParentId }) groups

/-- The group branch of the drop handler in attachGroupListeners: the
dragged group id is read from the data transfer; if it is non-empty and
differs from the target group id, moveGroupToParent is called.  This is
the only guard on the commit path; isDescendantGroup is consulted only
when painting drop-target highlights at drag start. -/
def dropGroupOn (groups : List Group) (draggedId targetId : String) : List Group :=
  if draggedId ≠ "" ∧ draggedId ≠ targetId then
    moveGroupToParent groups draggedId (some targetId)
  else groups

/-- isDescendantGroup from sidepanel.js, walking parentId pointers upward
from potentialChildId; fuel bounds the walk (the JS recursion diverges on
a cyclic parent graph). -/
def isDescendantGroup (groups : List Group) :
    Nat → String → String → Bool
  | 0, _, _ => false
  | fuel + 1, potentialChildId, parentGroupId =>
    match groups.find? (fun g => decide (g.id = potentialChildId)) with
    | none => false
    | some child =>
      if child.parentId = some parentGroupId then true
      else
        match child.parentId with
        | some p => isDescendantGroup groups fuel p parentGroupId
        | none => false

/-- getGroupAndDescendants from sidepanel.js: the group id followed by
the recursive expansion of every direct child; fuel bounds the recursion
depth (the JS recursion diverges on a cyclic parent graph). -/
def getGroupAndDescendants (groups : List Group) :
    Nat → String → List String
  | 0, groupId => [groupId]
  | fuel + 1, groupId =>
    groupId ::
      ((groups.filter (fun g => decide (g.parentId = some groupId))).map
        (fun child => getGroupAndDescendants groups fuel child.id)).flatten

/-- The test groupsToDelete.includes(tab.groupId) from deleteGroup: a
null groupId is never in the list of group-id strings. -/
def groupIdInList (ids : List String) (t : Tab) : Bool :=
  match t.groupId with
  | some g => ids.contains g
  | none => false

/-- deleteGroup from sidepanel.js: collect the group and its descendants,
null out the groupId of every saved tab pointing into that set, then
filter those groups out of the group list. -/
def deleteGroup (s : AppState) (fuel : Nat) (groupId : String) : AppState :=
  let groupsToDelete := getGroupAndDescendants s.groups fuel groupId
  { s with
    savedTabs := s.savedTabs.map (fun t =>
      if groupIdInList groupsToDelete t then { t with groupId := none } else t),
    groups := s.groups.filter (fun g => !groupsToDelete.contains g.id) }

/-- A chrome.alarms.create request: alarm name and absolute fire time. -/
structure AlarmRequest where
  name : String
  whenAt : Int
deriving DecidableEq

/-- handleSaveTimer from sidepanel.js (timers module): reject zero
duration with no state change; otherwise, if the tab exists, build the
timed tab with timerEnd = now + duration, replace any prior timed tab
with the same id (filter then push) and request the alarm timer-id. -/
def handleSaveTimer (s : AppState) (tabId : Nat) (hours minutes : Nat)
    (now : Int) : AppState × List AlarmRequest :=
  if hours = 0 ∧ minutes = 0 then (s, [])
  else
    match s.savedTabs.find? (fun t => decide (t.id = tabId)) with
    | none => (s, [])
    | some tab =>
      let durationMs : Int := (((hours * 60 + minutes) * 60 * 1000 : Nat) : Int)
      let endTime := now + durationMs
      let timedTab : TimedTab :=
        { tab := tab, timerEnd := endTime, timerDuration := durationMs,
          notified := false }
      ({ s with timedTabs :=
           s.timedTabs.filter (fun t => !decide (t.tab.id = tabId)) ++ [timedTab] },
       [{ name := "timer-" ++ toString tabId, whenAt := endTime }])

/-- Marks the first timed tab with the given id as notified (the JS code
mutates the object returned by timedTabs.find). -/
def setNotifiedFirst (tts : List TimedTab) (tabId : Nat) : List TimedTab :=
  updateFirst (fun t => decide (t.tab.id = tabId))
    (fun t => { t with notified := true }) tts

/-- triggerTimerNotification from sidepanel.js: look the id up in
timedTabs; if absent or already notified, do nothing; otherwise set
notified and emit one notification-intent.  The returned Nat counts
emitted notification-intents. -/
def triggerTimerNotification (tts : List TimedTab) (tabId : Nat) :
    List TimedTab × Nat :=
  match tts.find? (fun t => decide (t.tab.id = tabId)) with
  | none => (tts, 0)
  | some timedTab =>
    if timedTab.notified then (tts, 0)
    else (setNotifiedFirst tts tabId, 1)

/-- The expiry branch of updateTimerDisplay from sidepanel.js at wall
clock now: if the timed tab exists and remaining = timerEnd - now is not
positive, triggerTimerNotification runs (the countdown DOM element is
assumed present); otherwise nothing is emitted. -/
def updateTimerDisplay (tts : List TimedTab) (tabId : Nat) (now : Int) :
    List TimedTab × Nat :=
  match tts.find? (fun t => decide (t.tab.id = tabId)) with
  | none => (tts, 0)
  | some timedTab =>
    if timedTab.timerEnd - now ≤ 0 then triggerTimerNotification tts tabId
    else (tts, 0)

/-- The chrome.alarms.onAlarm listener in background.js for alarm
timer-id: look the id up in the stored timedTabs; if present emit one
notification-intent; the notified flag is neither read nor written. -/
def alarmFired (tts : List TimedTab) (tabId : Nat) : List TimedTab × Nat :=
  match tts.find? (fun t => decide (t.tab.id = tabId)) with
  | none => (tts, 0)
  | some _ => (tts, 1)

/-- An expiry-evaluation event for a timed tab: a local countdown tick at
wall clock now, or the external alarm signal handled by background.js. -/
inductive ExpiryEvent where
  | tick (now : Int)
  | alarm
deriving DecidableEq

/-- Runs a sequence of expiry-evaluation events for one tab id over the
shared timedTabs collection, summing the emitted notification-intents. -/
def runExpiryEvents (tts : List TimedTab) (tabId : Nat) :
    List ExpiryEvent → List TimedTab × Nat
  | [] => (tts, 0)
  | e :: es =>
    let step :=
      match e with
      | .tick now => updateTimerDisplay tts tabId now
      | .alarm => alarmFired tts tabId
    let rest := runExpiryEvents step.1 tabId es
    (rest.1, step.2 + rest.2)

/-- The five Due Soon buckets of renderDueSoon. -/
inductive DueCategory where
  | overdue
  | today
  | tomorrow
  | thisWeek
  | later
deriving DecidableEq

/-- The categorization chain of renderDueSoon, over millisecond
timestamps: the boundaries are now, start of tomorrow, start of the day
after tomorrow and start of today plus seven days, all computed by the
caller from the wall clock. -/
def categorizeReminder (now tomorrowStart dayAfterTomorrowStart endOfWeek
    reminder : Int) : DueCategory :=
  if reminder < now then .overdue
  else if reminder < tomorrowStart then .today
  else if reminder < dayAfterTomorrowStart then .tomorrow
  else if reminder < endOfWeek then .thisWeek
  else .later

/-- The comparator sortByReminder of renderDueSoon as a relation on tabs
(tabs without a reminder compare through the 0 default; the buckets only
ever hold tabs with a reminder). -/
def remLE (a b : Tab) : Prop :=
  a.reminder.getD 0 ≤ b.reminder.getD 0

instance : DecidableRel remLE :=
  fun a b => inferInstanceAs (Decidable (a.reminder.getD 0 ≤ b.reminder.getD 0))

instance : IsTotal Tab remLE :=
  ⟨fun a b => le_total (a.reminder.getD 0) (b.reminder.getD 0)⟩

instance : IsTrans Tab remLE :=
  ⟨fun _ _ _ hab hbc => le_trans hab hbc⟩

/-- One bucket of renderDueSoon: take the saved tabs with a reminder,
keep those the chain puts in the category, and sort ascending by
reminder timestamp (the JS Array.prototype.sort call with comparator
sortByReminder, embedded as insertion sort). -/
def dueSoonBucket (now tomorrowStart dayAfterTomorrowStart endOfWeek : Int)
    (tabs : List Tab) (cat : DueCategory) : List Tab :=
  List.insertionSort remLE
    ((tabs.filter (fun t => t.reminder.isSome)).filter
      (fun t =>
        decide (categorizeReminder now tomorrowStart dayAfterTomorrowStart
          endOfWeek (t.reminder.getD 0) = cat)))

/-- A change notification for exactly one of the five persisted
collection keys, carrying the remote newValue (absent when the key was
removed). -/
inductive RemoteDelta where
  | savedTabs (newValue : Option (List Tab))
  | groups (newValue : Option (List Group))
  | dailyTabs (newValue : Option (List Tab))
  | pinnedTabs (newValue : Option (List Tab))
  | timedTabs (newValue : Option (List TimedTab))

/-- The per-key branches of setupStorageChangeListener: the named
in-memory collection is replaced wholesale with newValue, defaulting to
the empty array; no other collection is touched. -/
def applyRemoteDelta (s : AppState) : RemoteDelta → AppState
  | .savedTabs v => { s with savedTabs := v.getD [] }
  | .groups v => { s with groups := v.getD [] }
  | .dailyTabs v => { s with dailyTabs := v.getD [] }
  | .pinnedTabs v => { s with pinnedTabs := v.getD [] }
  | .timedTabs v => { s with timedTabs := v.getD [] }

/-- Child-step reachability in the group forest: DescOf groups root x
holds when x is root or is reached from root by following parentId edges
downward (x is root or a descendant of root).  This is the set the spec
calls the group together with all its descendants. -/
inductive DescOf (groups : List Group) (root : String) : String → Prop
  | refl : DescOf groups root root
  | step {p : String} {g : Group} :
      DescOf groups root p → g ∈ groups → g.parentId = some p →
      DescOf groups root g.id

/-- A concrete saved tab used in the concrete evaluations below; note its
url carries a trailing slash. -/
def cTab1 : Tab :=
  { id := 1, title := "A", url := "https://x.com/a/", favicon := "",
    savedAt := "s", groupId := none, reminder := none, hasTime := false }

/-- A concrete state whose single saved tab is also pinned. -/
def cState1 : AppState :=
  { savedTabs := [cTab1], groups := [], dailyTabs := [], pinnedTabs := [cTab1],
    timedTabs := [], timerIntervals := [] }

/-- A concrete timed tab for tab id 1, already expired at wall clock 1 and
not yet notified. -/
def cTimed1 : TimedTab :=
  { tab := cTab1, timerEnd := 0, timerDuration := 5, notified := false }

/-- A concrete state where tab id 1 is saved, daily, pinned and timed,
with a live countdown interval. -/
def cState2 : AppState :=
  { savedTabs := [cTab1], groups := [], dailyTabs := [cTab1],
    pinnedTabs := [cTab1], timedTabs := [cTimed1], timerIntervals := [1] }

/-- Concrete root group A. -/
def cGroupA : Group := { id := "A", name := "A", expanded := true, parentId := none }

/-- Concrete group B, a child of A. -/
def cGroupB : Group := { id := "B", name := "B", expanded := true, parentId := some "A" }

/-- Concrete root group g1. -/
def cGroupG : Group := { id := "g1", name := "G", expanded := true, parentId := none }

/-- Concrete group c1, a child of g1. -/
def cGroupC1 : Group := { id := "c1", name := "C1", expanded := true, parentId := some "g1" }

/-- Concrete group c2, a child of c1. -/
def cGroupC2 : Group := { id := "c2", name := "C2", expanded := true, parentId := some "c1" }

/-- A concrete saved tab assigned to group c2. -/
def cTabC2 : Tab :=
  { id := 2, title := "B", url := "https://y.com/b", favicon := "",
    savedAt := "s", groupId := some "c2", reminder := none, hasTime := false }

/-- cTabC2 after its group assignment has been cleared. -/
def cTabC2Cleared : Tab :=
  { id := 2, title := "B", url := "https://y.com/b", favicon := "",
    savedAt := "s", groupId := none, reminder := none, hasTime := false }

/-- A concrete state with the three-group chain g1 - c1 - c2, one tab in
c2 and one ungrouped tab. -/
def cStateG : AppState :=
  { savedTabs := [cTabC2, cTab1], groups := [cGroupG, cGroupC1, cGroupC2],
    dailyTabs := [], pinnedTabs := [], timedTabs := [], timerIntervals := [] }

theorem updateFirst_length (p : α → Bool) (f : α → α) (l : List α) :
    (updateFirst p f l).length = l.length := by
  induction l with
  | nil => rfl
  | cons x xs ih =>
    simp only [updateFirst]
    split
    · simp
    · simp [ih]

theorem mem_updateFirst {p : α → Bool} {f : α → α} {l : List α} {a : α}
    (h : a ∈ updateFirst p f l) :
    a ∈ l ∨ ∃ b, b ∈ l ∧ p b = true ∧ a = f b := by
  induction l with
  | nil => simp [updateFirst] at h
  | cons x xs ih =>
    simp only [updateFirst] at h
    by_cases hx : p x
    · rw [if_pos hx] at h
      rcases List.mem_cons.mp h with h1 | h1
      · exact Or.inr ⟨x, List.mem_cons_self x xs, hx, h1⟩
      · exact Or.inl (List.mem_cons_of_mem x h1)
    · rw [if_neg hx] at h
      rcases List.mem_cons.mp h with h1 | h1
      · exact Or.inl (h1 ▸ List.mem_cons_self x xs)
      · rcases ih h1 with h2 | ⟨b, hb, hpb, hab⟩
        · exact Or.inl (List.mem_cons_of_mem x h2)
        · exact Or.inr ⟨b, List.mem_cons_of_mem x hb, hpb, hab⟩

theorem find?_updateFirst {p : α → Bool} {f : α → α} {l : List α} {a : α}
    (h : l.find? p = some a) (hfa : p (f a) = true) :
    (updateFirst p f l).find? p = some (f a) := by
  induction l with
  | nil => simp at h
  | cons x xs ih =>
    by_cases hx : p x
    · rw [List.find?_cons_of_pos _ hx, Option.some_inj] at h
      subst h
      simp only [updateFirst, if_pos hx]
      exact List.find?_cons_of_pos _ hfa
    · rw [List.find?_cons_of_neg _ hx] at h
      simp only [updateFirst, if_neg hx]
      rw [List.find?_cons_of_neg _ hx]
      exact ih h

/-- C9: applying a remote delta for one collection key replaces exactly
that collection wholesale, defaulting to the empty array when the remote
value is absent, and leaves the in-memory values of the other four
collections unchanged; in particular a delta for groups does not alter
savedTabs, dailyTabs, pinnedTabs or timedTabs. -/
theorem applyRemoteDelta_wholesale_isolated :
    ∀ (s : AppState),
      (∀ v : Option (List Tab),
        applyRemoteDelta s (RemoteDelta.savedTabs v) = { s with savedTabs := v.getD [] }) ∧
      (∀ v : Option (List Group),
        applyRemoteDelta s (RemoteDelta.groups v) = { s with groups := v.getD [] }) ∧
      (∀ v : Option (List Tab),
        applyRemoteDelta s (RemoteDelta.dailyTabs v) = { s with dailyTabs := v.getD [] }) ∧
      (∀ v : Option (List Tab),
        applyRemoteDelta s (RemoteDelta.pinnedTabs v) = { s with pinnedTabs := v.getD [] }) ∧
      (∀ v : Option (List TimedTab),
        applyRemoteDelta s (RemoteDelta.timedTabs v) = { s with timedTabs := v.getD [] }) ∧
      (∀ v : Option (List Group),
        (applyRemoteDelta s (RemoteDelta.groups v)).savedTabs = s.savedTabs ∧
        (applyRemoteDelta s (RemoteDelta.groups v)).dailyTabs = s.dailyTabs ∧
        (applyRemoteDelta s (RemoteDelta.groups v)).pinnedTabs = s.pinnedTabs ∧
        (applyRemoteDelta s (RemoteDelta.groups v)).timedTabs = s.timedTabs) :=
  fun _ =>
    ⟨fun _ => rfl, fun _ => rfl, fun _ => rfl, fun _ => rfl, fun _ => rfl,
     fun _ => ⟨rfl, rfl, rfl, rfl⟩⟩

/-- C10: addToDailyTabs and addToPinnedTabs are idempotent no-ops at the
boundary: when the id is not among the saved tabs, or a snapshot with
the id is already in the target collection, the state is unchanged;
otherwise exactly one copy of the saved tab is appended, and calling the
operation twice equals calling it once. -/
theorem addToDaily_addToPinned_idempotent :
    ∀ (s : AppState) (tabId : Nat),
      (s.savedTabs.find? (fun t => decide (t.id = tabId)) = none →
        addToDailyTabs s tabId = s ∧ addToPinnedTabs s tabId = s) ∧
      (∀ tab, s.savedTabs.find? (fun t => decide (t.id = tabId)) = some tab →
        (s.dailyTabs.any (fun t => decide (t.id = tabId)) = true →
          addToDailyTabs s tabId = s) ∧
        (s.dailyTabs.any (fun t => decide (t.id = tabId)) = false →
          addToDailyTabs s tabId = { s with dailyTabs := s.dailyTabs ++ [tab] }) ∧
        (s.pinnedTabs.any (fun t => decide (t.id = tabId)) = true →
          addToPinnedTabs s tabId = s) ∧
        (s.pinnedTabs.any (fun t => decide (t.id = tabId)) = false →
          addToPinnedTabs s tabId = { s with pinnedTabs := s.pinnedTabs ++ [tab] })) ∧
      addToDailyTabs (addToDailyTabs s tabId) tabId = addToDailyTabs s tabId ∧
      addToPinnedTabs (addToPinnedTabs s tabId) tabId = addToPinnedTabs s tabId := by
  intro s tabId
  refine ⟨?_, ?_, ?_, ?_⟩
  · intro h
    constructor <;> simp [addToDailyTabs, addToPinnedTabs, h]
  · intro tab hf
    refine ⟨?_, ?_, ?_, ?_⟩ <;> intro h <;>
      simp [addToDailyTabs, addToPinnedTabs, hf, h]
  · cases hf : s.savedTabs.find? (fun t => decide (t.id = tabId)) with
    | none => simp [addToDailyTabs, hf]
    | some tab =>
      have hp : tab.id = tabId := by simpa using List.find?_some hf
      cases hd : s.dailyTabs.any (fun t => decide (t.id = tabId)) with
      | true => simp [addToDailyTabs, hf, hd]
      | false =>
        simp only [addToDailyTabs, hf, hd]
        simp [addToDailyTabs, hf, List.any_append, hp]
  · cases hf : s.savedTabs.find? (fun t => decide (t.id = tabId)) with
    | none => simp [addToPinnedTabs, hf]
    | some tab =>
      have hp : tab.id = tabId := by simpa using List.find?_some hf
      cases hd : s.pinnedTabs.any (fun t => decide (t.id = tabId)) with
      | true => simp [addToPinnedTabs, hf, hd]
      | false =>
        simp only [addToPinnedTabs, hf, hd]
        simp [addToPinnedTabs, hf, List.any_append, hp]

/-- Witness for C10 at the concrete state cState1: adding tab id 1 to the
daily collection appends one snapshot, and adding the unknown id 99 is a
no-op. -/
theorem addToDaily_addToPinned_idempotent_witness :
    addToDailyTabs cState1 1 = { cState1 with dailyTabs := cState1.dailyTabs ++ [cTab1] } ∧
    addToDailyTabs cState1 99 = cState1 :=
  ⟨(((addToDaily_addToPinned_idempotent cState1 1).2.1 cTab1 (by decide)).2.1) (by decide),
   ((addToDaily_addToPinned_idempotent cState1 99).1 (by decide)).1⟩

/-- C3 fails on the code: in the concrete state cState1, tab id 1 is
saved and pinned; deleteTab 1 removes the saved record but the pinned
collection still contains a record with id 1, so it is not true that
afterwards no collection contains a record with that id. -/
theorem deleteTab_pinned_not_removed :
    (deleteTab cState1 1).state.pinnedTabs = [cTab1] ∧
    (deleteTab cState1 1).state.pinnedTabs.any (fun t => decide (t.id = 1)) = true ∧
    (deleteTab cState1 1).state.savedTabs = [] := by
  decide

/-- C3 amended: deleteTab removes every record with the id from the
saved, daily and timed collections and, exactly when a timed record
existed, clears the alarm timer-id and the countdown interval for the
id; pinnedTabs (and groups) are left untouched. -/
theorem deleteTab_cascades_saved_daily_timed :
    ∀ (s : AppState) (tabId : Nat),
      (∀ t ∈ (deleteTab s tabId).state.savedTabs, ¬ t.id = tabId) ∧
      (∀ t ∈ (deleteTab s tabId).state.dailyTabs, ¬ t.id = tabId) ∧
      (∀ t ∈ (deleteTab s tabId).state.timedTabs, ¬ t.tab.id = tabId) ∧
      (deleteTab s tabId).state.pinnedTabs = s.pinnedTabs ∧
      (deleteTab s tabId).state.groups = s.groups ∧
      (s.timedTabs.any (fun t => decide (t.tab.id = tabId)) = true →
        (deleteTab s tabId).clearedAlarms = ["timer-" ++ toString tabId] ∧
        (deleteTab s tabId).state.timerIntervals =
          s.timerIntervals.filter (fun i => !decide (i = tabId))) ∧
      (s.timedTabs.any (fun t => decide (t.tab.id = tabId)) = false →
        (deleteTab s tabId).clearedAlarms = [] ∧
        (deleteTab s tabId).state.timerIntervals = s.timerIntervals ∧
        (deleteTab s tabId).state.timedTabs = s.timedTabs) := by
  intro s tabId
  cases hany : s.timedTabs.any (fun t => decide (t.tab.id = tabId)) with
  | true =>
    refine ⟨?_, ?_, ?_, ?_, ?_, ?_, ?_⟩ <;>
      simp [deleteTab, hany, List.mem_filter]
  | false =>
    refine ⟨?_, ?_, ?_, ?_, ?_, ?_, ?_⟩ <;>
      simp [deleteTab, hany, List.mem_filter]
    intro t ht
    have := (List.any_eq_false.mp hany) t ht
    simpa using this

/-- Witness for the amended C3 at concrete states: with a timed record
for id 1 the alarm timer-1 is cleared and the interval removed, and
without one nothing is cleared. -/
theorem deleteTab_cascades_saved_daily_timed_witness :
    ((deleteTab cState2 1).clearedAlarms = ["timer-" ++ toString 1] ∧
      (deleteTab cState2 1).state.timerIntervals =
        cState2.timerIntervals.filter (fun i => !decide (i = 1))) ∧
    (deleteTab cState1 1).clearedAlarms = [] :=
  ⟨(deleteTab_cascades_saved_daily_timed cState2 1).2.2.2.2.2.1 (by decide),
   ((deleteTab_cascades_saved_daily_timed cState1 1).2.2.2.2.2.2 (by decide)).1⟩

/-- C1 fails on the code: the create-tab operation deduplicates on the
exact url string, not on the normalized key.  Concretely, cState1 holds
a tab whose url is https://x.com/a/ and the candidate url
https://x.com/a normalizes to the same key, yet addTab inserts it, after
which two saved tabs share one normalized URL. -/
theorem addTab_normalized_duplicate_inserted :
    normalizeUrl "https://x.com/a" = normalizeUrl cTab1.url ∧
    (addTab cState1 2 "s2" "A2" "https://x.com/a" "").savedTabs.length = 2 ∧
    (addTab cState1 2 "s2" "A2" "https://x.com/a" "").savedTabs.map
        (fun t => normalizeUrl t.url) =
      ["https://x.com/a", "https://x.com/a"] := by
  decide

/-- C1 amended: the create-tab operation suppresses the insert exactly
when some saved tab has the same exact url string; otherwise it prepends
one fresh record and touches nothing else, so pairwise distinctness of
the exact url strings (not of normalized keys) is preserved. -/
theorem addTab_exact_url_dedup :
    ∀ (s : AppState) (newId : Nat) (nowIso title url favicon : String),
      (s.savedTabs.any (fun t => decide (t.url = url)) = true →
        addTab s newId nowIso title url favicon = s) ∧
      (s.savedTabs.any (fun t => decide (t.url = url)) = false →
        (addTab s newId nowIso title url favicon).savedTabs =
          { id := newId, title := title, url := url, favicon := favicon,
            savedAt := nowIso, groupId := none, reminder := none,
            hasTime := false } :: s.savedTabs ∧
        (addTab s newId nowIso title url favicon).groups = s.groups ∧
        (addTab s newId nowIso title url favicon).dailyTabs = s.dailyTabs ∧
        (addTab s newId nowIso title url favicon).pinnedTabs = s.pinnedTabs ∧
        (addTab s newId nowIso title url favicon).timedTabs = s.timedTabs) ∧
      (List.Pairwise (fun a b => a.url ≠ b.url) s.savedTabs →
        List.Pairwise (fun a b => a.url ≠ b.url)
          (addTab s newId nowIso title url favicon).savedTabs) := by
  intro s newId nowIso title url favicon
  refine ⟨?_, ?_, ?_⟩
  · intro h
    simp [addTab, h]
  · intro h
    refine ⟨?_, ?_, ?_, ?_, ?_⟩ <;> simp [addTab, h]
  · intro hpw
    cases hany : s.savedTabs.any (fun t => decide (t.url = url)) with
    | true => simpa [addTab, hany] using hpw
    | false =>
      have hall := List.any_eq_false.mp hany
      simp only [addTab, hany, Bool.false_eq_true, if_false]
      refine List.pairwise_cons.mpr ⟨?_, hpw⟩
      intro t ht
      have := hall t ht
      simp only [decide_eq_true_eq] at this
      simpa using fun hc => this hc.symm

/-- Witness for the amended C1: re-adding the exact url of cTab1 is a
no-op, while a url that only normalizes equal is inserted at the front. -/
theorem addTab_exact_url_dedup_witness :
    addTab cState1 2 "s2" "A2" "https://x.com/a/" "" = cState1 ∧
    (addTab cState1 2 "s2" "A2" "https://x.com/a" "").savedTabs =
      { id := 2, title := "A2", url := "https://x.com/a", favicon := "",
        savedAt := "s2", groupId := none, reminder := none,
        hasTime := false } :: cState1.savedTabs :=
  ⟨(addTab_exact_url_dedup cState1 2 "s2" "A2" "https://x.com/a/" "").1 (by decide),
   ((addTab_exact_url_dedup cState1 2 "s2" "A2" "https://x.com/a" "").2.1 (by decide)).1⟩

/-- C2 fails on the code: with groups A and B where B is a child of A
(so isDescendantGroup B A is true), dropping A onto B is not rejected -
the drop handler only rules out an empty dragged id and A equal to B -
and after the commit isDescendantGroup A A is true, violating the
acyclicity invariant. -/
theorem dropGroup_cycle_counterexample :
    isDescendantGroup [cGroupA, cGroupB] 2 "B" "A" = true ∧
    dropGroupOn [cGroupA, cGroupB] "A" "B" ≠ [cGroupA, cGroupB] ∧
    isDescendantGroup (dropGroupOn [cGroupA, cGroupB] "A" "B") 2 "A" "A" = true := by
  decide

/-- C2 amended: the drop commit path rejects a group re-parent only when
the dragged id is empty or equals the target id; in every other case
moveGroupToParent runs unconditionally (isDescendantGroup guards only
the drop-target highlighting, not the commit), re-pointing the parentId
of the first group with the dragged id and changing nothing else, so a
re-parent under a descendant is applied and can create a cycle. -/
theorem dropGroupOn_only_self_guard :
    ∀ (groups : List Group) (a b : String),
      (a = b → dropGroupOn groups a b = groups) ∧
      (a = "" → dropGroupOn groups a b = groups) ∧
      (a ≠ "" → a ≠ b →
        dropGroupOn groups a b = moveGroupToParent groups a (some b)) ∧
      (moveGroupToParent groups a (some b)).length = groups.length ∧
      (∀ g ∈ moveGroupToParent groups a (some b),
        g ∈ groups ∨
          ∃ g₀, g₀ ∈ groups ∧ g₀.id = a ∧ g = { g₀ with parentId := some b }) := by
  intro groups a b
  refine ⟨?_, ?_, ?_, ?_, ?_⟩
  · intro h
    simp [dropGroupOn, h]
  · intro h
    simp [dropGroupOn, h]
  · intro h1 h2
    simp [dropGroupOn, h1, h2]
  · exact updateFirst_length _ _ _
  · intro g hg
    rcases mem_updateFirst hg with h | ⟨g₀, hg₀, hpg₀, hgf⟩
    · exact Or.inl h
    · exact Or.inr ⟨g₀, hg₀, by simpa using hpg₀, hgf⟩

/-- Witness for the amended C2: dropping A onto itself is a no-op, and
dropping A onto its child B commits the move. -/
theorem dropGroupOn_only_self_guard_witness :
    dropGroupOn [cGroupA, cGroupB] "A" "A" = [cGroupA, cGroupB] ∧
    dropGroupOn [cGroupA, cGroupB] "A" "B" =
      moveGroupToParent [cGroupA, cGroupB] "A" (some "B") :=
  ⟨(dropGroupOn_only_self_guard [cGroupA, cGroupB] "A" "A").1 rfl,
   (dropGroupOn_only_self_guard [cGroupA, cGroupB] "A" "B").2.2.1 (by decide) (by decide)⟩

/-- C8: normalizeUrl is a total function of its input; for every
parseable URL it returns origin + pathname with the trailing slash
stripped + search (the fragment is dropped), for every unparseable input
it returns the input unchanged, and on the claim examples the slash,
fragment and bare variants collapse to one key while distinct query
strings stay distinct. -/
theorem normalizeUrl_contract :
    (∀ url parsed, parseURL url = some parsed →
      normalizeUrl url = parsed.origin ++ dropTrailingSlash parsed.pathname ++ parsed.search) ∧
    (∀ url, parseURL url = none → normalizeUrl url = url) ∧
    normalizeUrl "https://x.com/a/" = "https://x.com/a" ∧
    normalizeUrl "https://x.com/a#frag" = "https://x.com/a" ∧
    normalizeUrl "https://x.com/a" = "https://x.com/a" ∧
    normalizeUrl "https://x.com/a?x=1" ≠ normalizeUrl "https://x.com/a?x=2" :=
  ⟨fun url parsed h => by simp [normalizeUrl, h],
   fun url h => by simp [normalizeUrl, h],
   by decide, by decide, by decide, by decide⟩

/-- Witness for C8: the parse-success equation at https://x.com/a/ and
the parse-failure identity at a plain non-URL string. -/
theorem normalizeUrl_contract_witness :
    normalizeUrl "https://x.com/a/" =
      "https://x.com" ++ dropTrailingSlash "/a/" ++ "" ∧
    normalizeUrl "not a url" = "not a url" :=
  ⟨normalizeUrl_contract.1 "https://x.com/a/"
      { origin := "https://x.com", pathname := "/a/", search := "", hash := "" }
      (by decide),
   normalizeUrl_contract.2.1 "not a url" (by decide)⟩

/-- C6: committing a timer arms it exactly when hours times sixty plus
minutes is positive (equivalently, not both inputs zero): a zero
duration is rejected synchronously with no state change and no alarm
request, while a positive duration for an existing tab produces one
timed tab with timerEnd = now + duration and timerDuration = duration,
replaces any prior timed tab with the same id (so exactly one timed
record with that id remains), requests the alarm timer-id, and changes
no other collection. -/
theorem handleSaveTimer_contract :
    ∀ (s : AppState) (tabId hours minutes : Nat) (now : Int),
      (hours * 60 + minutes = 0 ↔ hours = 0 ∧ minutes = 0) ∧
      (hours = 0 ∧ minutes = 0 →
        handleSaveTimer s tabId hours minutes now = (s, [])) ∧
      (∀ tab, s.savedTabs.find? (fun t => decide (t.id = tabId)) = some tab →
        0 < hours * 60 + minutes →
        (handleSaveTimer s tabId hours minutes now).1.timedTabs =
          s.timedTabs.filter (fun t => !decide (t.tab.id = tabId)) ++
            [{ tab := tab,
               timerEnd := now + (((hours * 60 + minutes) * 60 * 1000 : Nat) : Int),
               timerDuration := (((hours * 60 + minutes) * 60 * 1000 : Nat) : Int),
               notified := false }] ∧
        (handleSaveTimer s tabId hours minutes now).1.timedTabs.filter
            (fun t => decide (t.tab.id = tabId)) =
          [{ tab := tab,
             timerEnd := now + (((hours * 60 + minutes) * 60 * 1000 : Nat) : Int),
             timerDuration := (((hours * 60 + minutes) * 60 * 1000 : Nat) : Int),
             notified := false }] ∧
        (handleSaveTimer s tabId hours minutes now).2 =
          [{ name := "timer-" ++ toString tabId,
             whenAt := now + (((hours * 60 + minutes) * 60 * 1000 : Nat) : Int) }] ∧
        (handleSaveTimer s tabId hours minutes now).1.savedTabs = s.savedTabs ∧
        (handleSaveTimer s tabId hours minutes now).1.groups = s.groups ∧
        (handleSaveTimer s tabId hours minutes now).1.dailyTabs = s.dailyTabs ∧
        (handleSaveTimer s tabId hours minutes now).1.pinnedTabs = s.pinnedTabs) := by
  intro s tabId hours minutes now
  refine ⟨by omega, ?_, ?_⟩
  · intro h
    simp [handleSaveTimer, h.1, h.2]
  · intro tab hf hpos
    have hne : ¬ (hours = 0 ∧ minutes = 0) := by omega
    have hid : tab.id = tabId := by simpa using List.find?_some hf
    refine ⟨?_, ?_, ?_, ?_, ?_, ?_, ?_⟩ <;>
      simp [handleSaveTimer, hne, hf, List.filter_append, List.filter_filter, hid]

/-- Witness for C6 at the concrete state cState1: a zero duration is
rejected, and a 30-minute timer yields exactly one timed record for id 1
with timerEnd 100 + 1800000. -/
theorem handleSaveTimer_contract_witness :
    handleSaveTimer cState1 1 0 0 100 = (cState1, []) ∧
    (handleSaveTimer cState1 1 0 30 100).1.timedTabs.filter
        (fun t => decide (t.tab.id = 1)) =
      [{ tab := cTab1, timerEnd := 100 + ((((0 * 60 + 30) * 60 * 1000 : Nat)) : Int),
         timerDuration := ((((0 * 60 + 30) * 60 * 1000 : Nat)) : Int),
         notified := false }] :=
  ⟨(handleSaveTimer_contract cState1 1 0 0 100).2.1 ⟨rfl, rfl⟩,
   (((handleSaveTimer_contract cState1 1 0 30 100).2.2 cTab1 (by decide))
      (by decide)).2.1⟩

/-- C5: reminder categorization is the exact five-way chain over the
reminder timestamp and the day boundaries computed from now (overdue iff
before now; else today iff before start of tomorrow; else tomorrow iff
before start of the day after tomorrow; else thisWeek iff before start
of today plus seven days; else later); start of tomorrow minus one
millisecond buckets as today and exactly start of tomorrow as tomorrow;
and every Due Soon bucket is sorted ascending by reminder timestamp and
holds exactly the tabs whose reminder the chain assigns to it. -/
theorem dueSoon_categorization_exact :
    ∀ (now tomorrowStart dayAfterTomorrowStart endOfWeek : Int),
      now < tomorrowStart → tomorrowStart < dayAfterTomorrowStart →
      dayAfterTomorrowStart ≤ endOfWeek →
      (∀ r, categorizeReminder now tomorrowStart dayAfterTomorrowStart endOfWeek r =
          DueCategory.overdue ↔ r < now) ∧
      (∀ r, categorizeReminder now tomorrowStart dayAfterTomorrowStart endOfWeek r =
          DueCategory.today ↔ now ≤ r ∧ r < tomorrowStart) ∧
      (∀ r, categorizeReminder now tomorrowStart dayAfterTomorrowStart endOfWeek r =
          DueCategory.tomorrow ↔ tomorrowStart ≤ r ∧ r < dayAfterTomorrowStart) ∧
      (∀ r, categorizeReminder now tomorrowStart dayAfterTomorrowStart endOfWeek r =
          DueCategory.thisWeek ↔ dayAfterTomorrowStart ≤ r ∧ r < endOfWeek) ∧
      (∀ r, categorizeReminder now tomorrowStart dayAfterTomorrowStart endOfWeek r =
          DueCategory.later ↔ endOfWeek ≤ r) ∧
      categorizeReminder now tomorrowStart dayAfterTomorrowStart endOfWeek
        (tomorrowStart - 1) = DueCategory.today ∧
      categorizeReminder now tomorrowStart dayAfterTomorrowStart endOfWeek
        tomorrowStart = DueCategory.tomorrow ∧
      (∀ (tabs : List Tab) (cat : DueCategory),
        List.Sorted remLE
          (dueSoonBucket now tomorrowStart dayAfterTomorrowStart endOfWeek tabs cat) ∧
        (∀ t, t ∈ dueSoonBucket now tomorrowStart dayAfterTomorrowStart endOfWeek tabs cat ↔
          t ∈ tabs ∧ t.reminder.isSome = true ∧
          categorizeReminder now tomorrowStart dayAfterTomorrowStart endOfWeek
            (t.reminder.getD 0) = cat)) := by
  intro now tomorrowStart dayAfterTomorrowStart endOfWeek h1 h2 h3
  have hover : ∀ r,
      categorizeReminder now tomorrowStart dayAfterTomorrowStart endOfWeek r =
        DueCategory.overdue ↔ r < now := by
    intro r
    unfold categorizeReminder
    split_ifs <;> simp_all
  have htoday : ∀ r,
      categorizeReminder now tomorrowStart dayAfterTomorrowStart endOfWeek r =
        DueCategory.today ↔ now ≤ r ∧ r < tomorrowStart := by
    intro r
    unfold categorizeReminder
    split_ifs <;> simp_all <;> omega
  have htom : ∀ r,
      categorizeReminder now tomorrowStart dayAfterTomorrowStart endOfWeek r =
        DueCategory.tomorrow ↔ tomorrowStart ≤ r ∧ r < dayAfterTomorrowStart := by
    intro r
    unfold categorizeReminder
    split_ifs <;> simp_all <;> omega
  have hweek : ∀ r,
      categorizeReminder now tomorrowStart dayAfterTomorrowStart endOfWeek r =
        DueCategory.thisWeek ↔ dayAfterTomorrowStart ≤ r ∧ r < endOfWeek := by
    intro r
    unfold categorizeReminder
    split_ifs <;> simp_all <;> omega
  have hlater : ∀ r,
      categorizeReminder now tomorrowStart dayAfterTomorrowStart endOfWeek r =
        DueCategory.later ↔ endOfWeek ≤ r := by
    intro r
    unfold categorizeReminder
    split_ifs <;> simp_all <;> omega
  refine ⟨hover, htoday, htom, hweek, hlater, ?_, ?_, ?_⟩
  · exact (htoday (tomorrowStart - 1)).mpr (by omega)
  · exact (htom tomorrowStart).mpr (by omega)
  · intro tabs cat
    constructor
    · exact List.sorted_insertionSort remLE _
    · intro t
      unfold dueSoonBucket
      rw [(List.perm_insertionSort remLE _).mem_iff]
      simp only [List.mem_filter, decide_eq_true_eq]
      tauto

/-- Witness for C5 at concrete boundaries 0, 10, 20, 30: timestamp 9
buckets as today and timestamp 10 as tomorrow. -/
theorem dueSoon_categorization_exact_witness :
    categorizeReminder 0 10 20 30 (10 - 1) = DueCategory.today ∧
    categorizeReminder 0 10 20 30 10 = DueCategory.tomorrow :=
  ⟨(dueSoon_categorization_exact 0 10 20 30 (by decide) (by decide)
      (by decide)).2.2.2.2.2.1,
   (dueSoon_categorization_exact 0 10 20 30 (by decide) (by decide)
      (by decide)).2.2.2.2.2.2.1⟩

theorem runExpiryEvents_ticks_of_notified
    {tts : List TimedTab} {tabId : Nat} {t : TimedTab}
    (hf : tts.find? (fun x => decide (x.tab.id = tabId)) = some t)
    (hn : t.notified = true) :
    ∀ (nows : List Int),
      runExpiryEvents tts tabId (nows.map ExpiryEvent.tick) = (tts, 0) := by
  intro nows
  induction nows with
  | nil => rfl
  | cons n ns ih =>
    have hstep : updateTimerDisplay tts tabId n = (tts, 0) := by
      simp only [updateTimerDisplay, hf]
      split
      · simp [triggerTimerNotification, hf, hn]
      · rfl
    simp only [List.map_cons, runExpiryEvents, hstep, ih]

/-- C4 fails on the code: with one expired, never-notified timed tab for
id 1, a local countdown tick followed by the external alarm signal emits
two notification-intents, because the background alarm handler neither
reads nor writes the notified flag; a lone tick emits exactly one. -/
theorem timer_double_notify_counterexample :
    (runExpiryEvents [cTimed1] 1 [ExpiryEvent.tick 1]).2 = 1 ∧
    (runExpiryEvents [cTimed1] 1 [ExpiryEvent.tick 1, ExpiryEvent.alarm]).2 = 2 := by
  decide

/-- C4 amended: the local countdown path alone is single-notify - over
any nonempty sequence of ticks at or after timerEnd, the first tick sets
the notified flag on the timed tab and emits one notification-intent and
later ticks emit nothing - while the background alarm handler emits one
notification-intent on every alarm signal whose id still has a timed
record, without consulting notified, so combined evaluations can emit
more than once per id. -/
theorem timer_local_single_notify_alarm_unguarded :
    (∀ (tts : List TimedTab) (tabId : Nat) (t : TimedTab) (nows : List Int),
      tts.find? (fun x => decide (x.tab.id = tabId)) = some t →
      t.notified = false →
      nows ≠ [] →
      (∀ n ∈ nows, t.timerEnd ≤ n) →
      runExpiryEvents tts tabId (nows.map ExpiryEvent.tick) =
        (setNotifiedFirst tts tabId, 1)) ∧
    (∀ (tts : List TimedTab) (tabId : Nat) (u : TimedTab),
      tts.find? (fun x => decide (x.tab.id = tabId)) = some u →
      alarmFired tts tabId = (tts, 1)) := by
  constructor
  · intro tts tabId t nows hf hn hne hall
    cases nows with
    | nil => exact absurd rfl hne
    | cons n ns =>
      have hid : t.tab.id = tabId := by simpa using List.find?_some hf
      have hstep : updateTimerDisplay tts tabId n =
          (setNotifiedFirst tts tabId, 1) := by
        have hle : t.timerEnd - n ≤ 0 := by
          have := hall n (List.mem_cons_self n ns)
          omega
        simp only [updateTimerDisplay, hf, if_pos hle]
        simp [triggerTimerNotification, hf, hn]
      have hf2 : (setNotifiedFirst tts tabId).find?
          (fun x => decide (x.tab.id = tabId)) = some { t with notified := true } := by
        unfold setNotifiedFirst
        exact find?_updateFirst hf (by simpa using hid)
      have hrest := runExpiryEvents_ticks_of_notified hf2 rfl ns
      simp only [List.map_cons, runExpiryEvents, hstep, hrest]
  · intro tts tabId u hf
    unfold alarmFired
    rw [hf]

/-- Witness for the amended C4: two expired ticks for cTimed1 emit one
intent and set the flag; one alarm signal emits one intent without
touching the state. -/
theorem timer_local_single_notify_alarm_unguarded_witness :
    runExpiryEvents [cTimed1] 1
        (List.map ExpiryEvent.tick [1, 2]) = (setNotifiedFirst [cTimed1] 1, 1) ∧
    alarmFired [cTimed1] 1 = ([cTimed1], 1) :=
  ⟨timer_local_single_notify_alarm_unguarded.1 [cTimed1] 1 cTimed1 [1, 2]
      (by decide) (by decide) (by decide) (by decide),
   timer_local_single_notify_alarm_unguarded.2 [cTimed1] 1 cTimed1 (by decide)⟩

theorem self_mem_getGroupAndDescendants (groups : List Group) (fuel : Nat)
    (gid : String) : gid ∈ getGroupAndDescendants groups fuel gid := by
  cases fuel <;> simp [getGroupAndDescendants]

theorem descOf_of_mem_getGroupAndDescendants (groups : List Group) (root : String) :
    ∀ (fuel : Nat) (mid x : String),
      x ∈ getGroupAndDescendants groups fuel mid →
      DescOf groups root mid → DescOf groups root x := by
  intro fuel
  induction fuel with
  | zero =>
    intro mid x hx hmid
    simp only [getGroupAndDescendants, List.mem_singleton] at hx
    exact hx ▸ hmid
  | succ n ih =>
    intro mid x hx hmid
    simp only [getGroupAndDescendants, List.mem_cons, List.mem_flatten,
      List.mem_map] at hx
    rcases hx with rfl | ⟨l, ⟨c, hc, rfl⟩, hxl⟩
    · exact hmid
    · have hc2 := List.mem_filter.mp hc
      have hpar : c.parentId = some mid := by simpa using hc2.2
      exact ih c.id x hxl (DescOf.step hmid hc2.1 hpar)

theorem children_mem_getGroupAndDescendants (groups : List Group) :
    ∀ (fuel : Nat) (mid p : String),
      p ∈ getGroupAndDescendants groups fuel mid →
      ∀ c, c ∈ groups → c.parentId = some p →
        c.id ∈ getGroupAndDescendants groups (fuel + 1) mid := by
  intro fuel
  induction fuel with
  | zero =>
    intro mid p hp c hc hcp
    simp only [getGroupAndDescendants, List.mem_singleton] at hp
    subst hp
    simp only [getGroupAndDescendants, List.mem_cons, List.mem_flatten,
      List.mem_map]
    exact Or.inr ⟨getGroupAndDescendants groups 0 c.id,
      ⟨c, List.mem_filter.mpr ⟨hc, by simpa using hcp⟩, rfl⟩,
      self_mem_getGroupAndDescendants groups 0 c.id⟩
  | succ n ih =>
    intro mid p hp c hc hcp
    simp only [getGroupAndDescendants, List.mem_cons, List.mem_flatten,
      List.mem_map] at hp
    rcases hp with rfl | ⟨l, ⟨c₀, hc₀, rfl⟩, hpl⟩
    · simp only [getGroupAndDescendants, List.mem_cons, List.mem_flatten,
        List.mem_map]
      exact Or.inr ⟨getGroupAndDescendants groups (n + 1) c.id,
        ⟨c, List.mem_filter.mpr ⟨hc, by simpa using hcp⟩, rfl⟩,
        self_mem_getGroupAndDescendants groups (n + 1) c.id⟩
    · have hmem := ih c₀.id p hpl c hc hcp
      simp only [getGroupAndDescendants, List.mem_cons, List.mem_flatten,
        List.mem_map]
      exact Or.inr ⟨getGroupAndDescendants groups (n + 1) c₀.id,
        ⟨c₀, hc₀, rfl⟩, hmem⟩

theorem descOf_mem_getGroupAndDescendants (groups : List Group) (root : String)
    (fuel : Nat)
    (hstab : ∀ x ∈ getGroupAndDescendants groups (fuel + 1) root,
      x ∈ getGroupAndDescendants groups fuel root) :
    ∀ x, DescOf groups root x → x ∈ getGroupAndDescendants groups fuel root := by
  intro x hx
  induction hx with
  | refl => exact self_mem_getGroupAndDescendants groups fuel root
  | step hdesc hg hpar ih =>
    exact hstab _
      (children_mem_getGroupAndDescendants groups fuel root _ ih _ hg hpar)

/-- C7: with stabilized fuel, the set computed by getGroupAndDescendants
is exactly the group together with all of its descendants (child-step
reachability, which ignores the root group's own, possibly dangling,
parentId); deleteGroup then reassigns every saved tab pointing into that
set to null and removes exactly the groups in the set, leaving groups
outside the set, tabs whose groupId is outside the set, and the other
collections unchanged. -/
theorem deleteGroup_cascade_complete :
    ∀ (s : AppState) (fuel : Nat) (groupId : String),
      (∀ x ∈ getGroupAndDescendants s.groups (fuel + 1) groupId,
        x ∈ getGroupAndDescendants s.groups fuel groupId) →
      (∀ x, x ∈ getGroupAndDescendants s.groups fuel groupId ↔
        DescOf s.groups groupId x) ∧
      (∀ t ∈ (deleteGroup s fuel groupId).savedTabs,
        ∀ d ∈ getGroupAndDescendants s.groups fuel groupId,
          ¬ t.groupId = some d) ∧
      (∀ g ∈ (deleteGroup s fuel groupId).groups,
        ¬ g.id ∈ getGroupAndDescendants s.groups fuel groupId) ∧
      (∀ g ∈ s.groups, ¬ g.id ∈ getGroupAndDescendants s.groups fuel groupId →
        g ∈ (deleteGroup s fuel groupId).groups) ∧
      (∀ t ∈ s.savedTabs,
        groupIdInList (getGroupAndDescendants s.groups fuel groupId) t = false →
        t ∈ (deleteGroup s fuel groupId).savedTabs) ∧
      (deleteGroup s fuel groupId).dailyTabs = s.dailyTabs ∧
      (deleteGroup s fuel groupId).pinnedTabs = s.pinnedTabs ∧
      (deleteGroup s fuel groupId).timedTabs = s.timedTabs := by
  intro s fuel groupId hstab
  refine ⟨?_, ?_, ?_, ?_, ?_, rfl, rfl, rfl⟩
  · intro x
    exact ⟨fun h => descOf_of_mem_getGroupAndDescendants s.groups groupId fuel
      groupId x h DescOf.refl,
      fun h => descOf_mem_getGroupAndDescendants s.groups groupId fuel hstab x h⟩
  · intro t ht d hd
    simp only [deleteGroup, List.mem_map] at ht
    rcases ht with ⟨t₀, ht₀, rfl⟩
    cases hcond : groupIdInList (getGroupAndDescendants s.groups fuel groupId) t₀ with
    | true => simp [hcond]
    | false =>
      simp only [hcond, Bool.false_eq_true, if_false]
      intro hgd
      unfold groupIdInList at hcond
      rw [hgd] at hcond
      simp only [List.contains, List.elem_eq_mem, decide_eq_false_iff_not] at hcond
      exact hcond hd
  · intro g hg
    simp only [deleteGroup, List.mem_filter, Bool.not_eq_eq_eq_not, Bool.not_true,
      List.contains, List.elem_eq_mem, decide_eq_false_iff_not] at hg
    exact hg.2
  · intro g hg hmem
    simp only [deleteGroup, List.mem_filter]
    refine ⟨hg, ?_⟩
    simp [List.contains, hmem]
  · intro t ht hcond
    simp only [deleteGroup, List.mem_map]
    exact ⟨t, ht, by simp [hcond]⟩

/-- Witness for C7 at the concrete three-group chain g1 - c1 - c2 with
fuel 3: membership of c2 in the computed set coincides with descendant
reachability, and the tab formerly in c2 no longer references c2 after
the cascade. -/
theorem deleteGroup_cascade_complete_witness :
    (("c2" ∈ getGroupAndDescendants cStateG.groups 3 "g1") ↔
      DescOf cStateG.groups "g1" "c2") ∧
    ¬ cTabC2Cleared.groupId = some "c2" :=
  ⟨(deleteGroup_cascade_complete cStateG 3 "g1" (by decide)).1 "c2",
   (deleteGroup_cascade_complete cStateG 3 "g1" (by decide)).2.1
     cTabC2Cleared (by decide) "c2" (by decide)⟩

end TabSaver
